import Mathlib

/-!
Verification of the contract combinator core of `contract.py` (the `contractplus`
data-validation library) against its natural-language specification.

The embedding below is a direct translation of the Python 2 source:

* `Value` is the fragment of Python values the contracts inspect: ints, bools
  (a subtype of `int` in Python, see `isinst`), floats (payload modelled as a
  rational number, since the claims only exercise exact comparisons), strings,
  `None`, lists, and string-keyed dicts.  Mapping keys are restricted to
  strings in this fragment (every dict literal appearing in the claims uses
  string keys).
* `Err` distinguishes the exception kinds the source can raise from `check`:
  `ContractValidationError(msg, name)` (constructed by `_failure` with
  `name = None`, or re-raised by composites with a path in `name`),
  `RuntimeError` (used by the source for configuration errors, and raised by
  the Python 2 interpreter itself when the recursion limit is exceeded),
  `AttributeError` (raised when an unbound `ForwardC` delegates to `None`),
  and the built-in `TypeError` (raised by `issubclass` inside `_contract`
  when its argument is not a class).
* `Contract` is the tree of contract objects.  A `ForwardC` instance is a
  mutable cell; cells live in a store `Env` (a list indexed by cell id) and a
  `forwardC` node holds the id of its cell.
* `check env fuel c v` runs `c.check(v)`.  Python method calls can mutate the
  receiver, so the translation threads the receiver state explicitly and
  returns the pair (outcome, receiver after the call); no `check` method in
  the source assigns to any attribute, which is visible in each branch below
  returning its receiver rebuilt from the threaded sub-states.  The store is
  read-only during `check` (no `check` method assigns to a forward cell).
  `fuel` models the Python recursion limit: every nested `check` call burns
  one unit, and exhaustion gives the interpreter error
  `RuntimeError: maximum recursion depth exceeded`, which is exactly what the
  source does on a cyclic forward declaration applied to a value it never
  consumes.
-/

namespace CP

/-- Exception kinds observable from the contract core (see module comment). -/
inductive Err where
  | validation (msg : String) (name : Option String)
  | runtime (msg : String)
  | attrError (msg : String)
  | typeError (msg : String)
deriving DecidableEq, Repr

/-- Runtime types that occur as `value_type` / `TypeC` arguments in the claims. -/
inductive PyType where
  | int
  | float
  | str
  | bool
  | list
  | dict
  | noneType
deriving DecidableEq, Repr

/-- Python `type.__name__` for the modelled runtime types. -/
def pyTypeName : PyType → String
  | .int => "int"
  | .float => "float"
  | .str => "str"
  | .bool => "bool"
  | .list => "list"
  | .dict => "dict"
  | .noneType => "NoneType"

/-- The fragment of Python values checked by the contracts in the claims. -/
inductive Value where
  | vInt (n : Int)
  | vBool (b : Bool)
  | vFloat (q : Rat)
  | vStr (s : String)
  | vNone
  | vList (xs : List Value)
  | vDict (entries : List (String × Value))

/-- Python `isinstance(value, t)` on the modelled fragment.  Python `bool` is a
subclass of `int`, so a `bool` value is an instance of `int` (this is the
subtype-inclusive check the spec mentions for the type contract). -/
def isinst : Value → PyType → Bool
  | .vInt _, .int => true
  | .vBool _, .int => true
  | .vBool _, .bool => true
  | .vFloat _, .float => true
  | .vStr _, .str => true
  | .vList _, .list => true
  | .vDict _, .dict => true
  | .vNone, .noneType => true
  | _, _ => false

/-- Numeric payload of a value, used for the bound comparisons of
`FloatC.check`; Python compares `True`/`False` as `1`/`0`.  Only applied to
values that already passed the `isinstance` gate of the numeric contract. -/
def toQ : Value → Rat
  | .vInt n => (n : Rat)
  | .vBool b => if b then 1 else 0
  | .vFloat q => q
  | _ => 0

/-- Whether a value is of a numeric kind (int, bool or float). -/
def isNum : Value → Bool
  | .vInt _ => true
  | .vBool _ => true
  | .vFloat _ => true
  | _ => false

mutual

/-- Python `==` on the modelled fragment: numeric kinds compare by value
across `int`/`bool`/`float`, strings by content, `None` by itself, lists
pointwise.  Mapping equality is restricted to aligned entry order in this
model (Python dict equality is order-independent; no claim compares dicts). -/
def pyEq : Value → Value → Bool
  | .vStr a, .vStr b => a == b
  | .vNone, .vNone => true
  | .vList xs, .vList ys => pyEqList xs ys
  | .vDict xs, .vDict ys => pyEqEntries xs ys
  | a, b => isNum a && isNum b && decide (toQ a = toQ b)

def pyEqList : List Value → List Value → Bool
  | [], [] => true
  | a :: as', b :: bs' => pyEq a b && pyEqList as' bs'
  | _, _ => false

def pyEqEntries : List (String × Value) → List (String × Value) → Bool
  | [], [] => true
  | (k1, v1) :: r1, (k2, v2) :: r2 => k1 == k2 && pyEq v1 v2 && pyEqEntries r1 r2
  | _, _ => false

end

/-- Python `repr` of a value, used by `MappingC` error paths (`"%r" % key`).
Mapping keys in the modelled fragment are strings, whose `repr` wraps them in
single quotes; the remaining cases are only placeholders (lists and dicts are
unhashable and can never be mapping keys in the source). -/
def pyRepr : Value → String
  | .vStr s => "\x27" ++ s ++ "\x27"
  | .vInt n => toString n
  | .vBool b => if b then "True" else "False"
  | .vFloat q => toString q
  | .vNone => "None"
  | .vList _ => "[...]"
  | .vDict _ => "\x7b...\x7d"

/-- The contract tree.  Constructors follow the classes of the source:
`TypeC`, `AnyC`, `OrC`, `NullC`, `BoolC`, `FloatC`, `IntC` (a subclass of
`FloatC` differing only in `value_type`), `StringC`, `ListC`, `DictC`,
`MappingC`, `EnumC` and `ForwardC`.  `DictC` carries the four attributes set
by `__init__` / `allow_extra` / `allow_optionals`; its `contracts` dict is an
association list.  A `forwardC` node holds the id of its cell in the store. -/
inductive Contract where
  | typeC (type_ : PyType)
  | anyC
  | orC (contracts : List Contract)
  | nullC
  | boolC
  | floatC (gte lte gt lt : Option Int)
  | intC (gte lte gt lt : Option Int)
  | stringC (allow_blank : Bool)
  | listC (contract : Contract) (min_length : Nat) (max_length : Option Nat)
  | dictC (contracts : List (String × Contract)) (optionals : List String)
          (extras : List String) (allow_any : Bool)
  | mappingC (keyC : Contract) (valueC : Contract)
  | enumC (variants : List Value)
  | forwardC (id : Nat)

/-- The store of `ForwardC` cells: cell id ↦ `self.contract` (`none` while the
cell is unbound). -/
abbrev Env := List (Option Contract)

/-- Violation of an optional `gte` bound: `self.gte is not None and value < self.gte`. -/
def violGte : Option Int → Rat → Bool
  | some g, q => decide (q < (g : Rat))
  | none, _ => false

/-- Violation of an optional `lte` bound: `self.lte is not None and value > self.lte`. -/
def violLte : Option Int → Rat → Bool
  | some l, q => decide (q > (l : Rat))
  | none, _ => false

/-- Violation of an optional `lt` bound: `self.lt is not None and value >= self.lt`. -/
def violLt : Option Int → Rat → Bool
  | some l, q => decide (q ≥ (l : Rat))
  | none, _ => false

/-- Violation of an optional `gt` bound: `self.gt is not None and value <= self.gt`. -/
def violGt : Option Int → Rat → Bool
  | some g, q => decide (q ≤ (g : Rat))
  | none, _ => false

/-- Render an optional integer bound for an error message (`"%s" % bound`);
only ever used on a bound whose violation test returned true, hence on `some`. -/
def obStr : Option Int → String
  | some n => toString n
  | none => "None"

/-- Render an optional maximum length for an error message. -/
def obStrNat : Option Nat → String
  | some n => toString n
  | none => "None"

/-- Violation of the optional `max_length` of `ListC`:
`self.max_length is not None and len(value) > self.max_length`. -/
def maxViol : Option Nat → Nat → Bool
  | some mx, len => decide (len > mx)
  | none, _ => false

/-- `FloatC.check` (shared by `IntC`, which only overrides `value_type`):
fail on wrong runtime kind, then test the bounds in the fixed source order
`gte`, `lte`, `lt`, `gt`, failing on the first violated one.  All failures go
through `_failure`, i.e. carry no path. -/
def checkNumeric (value_type : PyType) (gte lte gt lt : Option Int) (v : Value) :
    Except Err Unit :=
  if !(isinst v value_type) then
    .error (.validation ("value is not " ++ pyTypeName value_type) none)
  else if violGte gte (toQ v) then
    .error (.validation ("value is less than " ++ obStr gte) none)
  else if violLte lte (toQ v) then
    .error (.validation ("value is greater than " ++ obStr lte) none)
  else if violLt lt (toQ v) then
    .error (.validation ("value should be less than " ++ obStr lt) none)
  else if violGt gt (toQ v) then
    .error (.validation ("value should be greater than " ++ obStr gt) none)
  else
    .ok ()

/-- Path composition used by `ListC.check` and `DictC.check_item`:
`"%s.%s" % (pre, err.name) if err.name else pre`. -/
def pathJoin (pre : String) : Option String → String
  | some s => pre ++ "." ++ s
  | none => pre

/-- The `except ContractValidationError` re-raise of `ListC.check` and
`DictC.check_item`: a caught validation failure is re-signalled with the
prefixed path; any other exception propagates unchanged (the source only
catches `ContractValidationError`). -/
def rewrapErr (pre : String) : Err → Err
  | .validation msg n => .validation msg (some (pathJoin pre n))
  | e => e

/-- Lookup in the `DictC.contracts` association list (`self.contracts[key]`). -/
def lookupKey : List (String × Contract) → String → Option Contract
  | [], _ => none
  | (k, c) :: rest, key => if k == key then some c else lookupKey rest key

/-- Write-back of a (possibly mutated) sub-contract into `DictC.contracts`
after a delegated `check` call returns. -/
def updateKey : List (String × Contract) → String → Contract → List (String × Contract)
  | [], _, _ => []
  | (k, c) :: rest, key, c' =>
    if k == key then (k, c') :: rest else (k, c) :: updateKey rest key c'

/-- `DictC.check_presence`: the first declared key that is neither optional
nor present in the value fails with `"<key> is required"` (no path). -/
def check_presence (contracts : List (String × Contract)) (optionals : List String)
    (keys : List String) : Except Err Unit :=
  match contracts with
  | [] => .ok ()
  | (k, _) :: rest =>
    if !(optionals.contains k) && !(keys.contains k) then
      .error (.validation (k ++ " is required") none)
    else
      check_presence rest optionals keys

/-- `DictC.check_item`: a present key with a declared contract delegates to it
and re-signals a caught validation failure with the key-prefixed path; an
undeclared key fails with `"<key> is not allowed key"` unless `allow_any` is
set or the key is in `extras`.  `f` is the delegated (state-threading) check
call on the sub-contract. -/
def check_item (f : Contract → Value → Except Err Unit × Contract)
    (contracts : List (String × Contract)) (extras : List String) (allow_any : Bool)
    (item : String × Value) : Except Err Unit × List (String × Contract) :=
  let (key, value) := item
  match lookupKey contracts key with
  | some ck =>
    match f ck value with
    | (.ok _, ck') => (.ok (), updateKey contracts key ck')
    | (.error e, ck') => (.error (rewrapErr key e), updateKey contracts key ck')
  | none =>
    if !allow_any && !(extras.contains key) then
      (.error (.validation (key ++ " is not allowed key") none), contracts)
    else
      (.ok (), contracts)

/-- The `map(self.check_item, value.items())` loop of `DictC.check`: items are
processed in order and the first raised exception stops the traversal. -/
def checkItems (f : Contract → Value → Except Err Unit × Contract)
    (extras : List String) (allow_any : Bool) :
    List (String × Contract) → List (String × Value) →
    Except Err Unit × List (String × Contract)
  | contracts, [] => (.ok (), contracts)
  | contracts, item :: rest =>
    match check_item f contracts extras allow_any item with
    | (.ok _, cs') => checkItems f extras allow_any cs' rest
    | (.error e, cs') => (.error e, cs')

/-- The element loop of `ListC.check`: elements are checked in index order
against the element contract, and a caught validation failure at index `i` is
re-signalled with path `"<i>"` or `"<i>.<childPath>"`; the first failing
element stops the traversal. -/
def checkListItems (f : Contract → Value → Except Err Unit × Contract) :
    Contract → Nat → List Value → Except Err Unit × Contract
  | c, _, [] => (.ok (), c)
  | c, i, x :: rest =>
    match f c x with
    | (.ok _, c') => checkListItems f c' (i + 1) rest
    | (.error e, c') => (.error (rewrapErr (toString i) e), c')

/-- The loop of `OrC.check`: each sub-contract is tried in order on the same
value; a success returns immediately, a validation failure is swallowed and
the next alternative is tried, any other exception propagates; when the
alternatives are exhausted the single failure `"no one contract matches"` is
signalled. -/
def checkOrItems (f : Contract → Value → Except Err Unit × Contract) (v : Value) :
    List Contract → Except Err Unit × List Contract
  | [] => (.error (.validation "no one contract matches" none), [])
  | c :: rest =>
    match f c v with
    | (.ok _, c') => (.ok (), c' :: rest)
    | (.error (.validation _ _), c') =>
      let (r, rest') := checkOrItems f v rest
      (r, c' :: rest')
    | (.error e, c') => (.error e, c' :: rest)

/-- The entry loop of `MappingC.check`: for every entry, the key is checked
against `keyC` (a caught validation failure is re-signalled with the rendered
path `"(key <repr>)"`, discarding the child failure's own path), then the
value against `valueC` (failure path `"(value for key <repr>)"`, likewise
discarding the child path). -/
def checkMappingItems (f : Contract → Value → Except Err Unit × Contract)
    (kc vc : Contract) : List (String × Value) → Except Err Unit × Contract × Contract
  | [] => (.ok (), kc, vc)
  | (key, value) :: rest =>
    match f kc (.vStr key) with
    | (.ok _, kc') =>
      match f vc value with
      | (.ok _, vc') => checkMappingItems f kc' vc' rest
      | (.error (.validation msg _), vc') =>
        (.error (.validation msg (some ("(value for key " ++ pyRepr (.vStr key) ++ ")"))),
         kc', vc')
      | (.error e, vc') => (.error e, kc', vc')
    | (.error (.validation msg _), kc') =>
      (.error (.validation msg (some ("(key " ++ pyRepr (.vStr key) ++ ")"))), kc', vc)
    | (.error e, kc') => (.error e, kc', vc)

/-- `check`: one `Contract.check(value)` call.  Returns the outcome together
with the receiver after the call (state threading, see the module comment).
`fuel` is the remaining Python recursion depth; each delegated `check` call
consumes one unit. -/
def check (env : Env) : Nat → Contract → Value → Except Err Unit × Contract
  | 0, c, _ => (.error (.runtime "maximum recursion depth exceeded"), c)
  | fuel + 1, c, v =>
    match c with
    | .typeC t =>
      (if isinst v t then .ok ()
       else .error (.validation ("value is not " ++ pyTypeName t) none), c)
    | .anyC => (.ok (), c)
    | .orC cs =>
      let (r, cs') := checkOrItems (fun c' v' => check env fuel c' v') v cs
      (r, .orC cs')
    | .nullC =>
      (match v with
       | .vNone => .ok ()
       | _ => .error (.validation "value should be None" none), c)
    | .boolC =>
      (match v with
       | .vBool _ => .ok ()
       | _ => .error (.validation "value should be True or False" none), c)
    | .floatC gte lte gt lt => (checkNumeric .float gte lte gt lt v, c)
    | .intC gte lte gt lt => (checkNumeric .int gte lte gt lt v, c)
    | .stringC allow_blank =>
      (match v with
       | .vStr s =>
         if !allow_blank && s.length == 0 then
           .error (.validation "blank value is not allowed" none)
         else .ok ()
       | _ => .error (.validation "value is not string" none), c)
    | .listC ec min_length max_length =>
      match v with
      | .vList xs =>
        if xs.length < min_length then
          (.error (.validation ("list length is less than " ++ toString min_length) none), c)
        else if maxViol max_length xs.length then
          (.error (.validation ("list length is greater than " ++ obStrNat max_length) none), c)
        else
          let (r, ec') := checkListItems (fun c' v' => check env fuel c' v') ec 0 xs
          (r, .listC ec' min_length max_length)
      | _ => (.error (.validation "value is not list" none), c)
    | .dictC contracts optionals extras allow_any =>
      match v with
      | .vDict items =>
        match check_presence contracts optionals (items.map Prod.fst) with
        | .error e => (.error e, .dictC contracts optionals extras allow_any)
        | .ok _ =>
          let (r, cs') := checkItems (fun c' v' => check env fuel c' v') extras allow_any
                            contracts items
          (r, .dictC cs' optionals extras allow_any)
      | _ => (.error (.validation "value is not dict" none),
              .dictC contracts optionals extras allow_any)
    | .mappingC kc vc =>
      match v with
      | .vDict items =>
        let (r, kc', vc') := checkMappingItems (fun c' v' => check env fuel c' v') kc vc items
        (r, .mappingC kc' vc')
      | _ =>
        -- the source iterates the value unconditionally; a non-mapping value
        -- raises a built-in error before any contract logic runs
        (.error (.typeError "argument of type mapping is required"), .mappingC kc vc)
    | .enumC variants =>
      (if variants.any (fun w => pyEq w v) then .ok ()
       else .error (.validation "value doesn\x27t match any variant" none), c)
    | .forwardC id =>
      match env[id]? with
      | some (some target) => ((check env fuel target v).1, .forwardC id)
      | _ =>
        -- `self.contract` is `None` (unbound cell): `None.check` raises
        (.error (.attrError "\x27NoneType\x27 object has no attribute \x27check\x27"),
         .forwardC id)

/-- `DictC.allow_extra(*names)`: each name is processed in order; `"*"` sets
`allow_any`, any other name is appended to `extras`.  Only `DictC` defines
this method; on other contracts it is not available (identity here, never
invoked on them in the claims). -/
def allow_extra (c : Contract) (names : List String) : Contract :=
  match c with
  | .dictC contracts optionals extras allow_any =>
    let st := names.foldl
      (fun (st : List String × Bool) name =>
        if name == "*" then (st.1, true) else (st.1 ++ [name], st.2))
      (extras, allow_any)
    .dictC contracts optionals st.1 st.2
  | c => c

/-- `DictC.allow_optionals(*names)`: `"*"` replaces `optionals` with all
declared keys, any other name is appended to `optionals`. -/
def allow_optionals (c : Contract) (names : List String) : Contract :=
  match c with
  | .dictC contracts optionals extras allow_any =>
    let opts := names.foldl
      (fun opts name =>
        if name == "*" then contracts.map Prod.fst else opts ++ [name])
      optionals
    .dictC contracts opts extras allow_any
  | c => c

/-- `ForwardC()`: allocate a fresh unbound cell in the store and return the
contract object referring to it. -/
def newForwardC (env : Env) : Env × Contract :=
  (env ++ [none], .forwardC env.length)

/-- `ForwardC.__lshift__` (the one-time bind): binding an already-bound cell
is the configuration error `"contract for ForwardC is already specified"`;
binding an unbound cell stores the target. -/
def forwardBind (env : Env) (id : Nat) (target : Contract) : Except Err Env :=
  match env[id]? with
  | some (some _) => .error (.runtime "contract for ForwardC is already specified")
  | _ => .ok (env.set id (some target))

/-- The contract classes (as opposed to instances) that occur as shorthand
arguments to composites in the claims; all have zero-argument constructors. -/
inductive ContractClass where
  | intCCls
  | floatCCls
  | stringCCls
  | nullCCls
  | boolCCls
  | anyCCls
deriving DecidableEq, Repr

/-- `contract()` for a contract class: instantiation with no arguments,
producing the class's default instance. -/
def instantiateClass : ContractClass → Contract
  | .intCCls => .intC none none none none
  | .floatCCls => .floatC none none none none
  | .stringCCls => .stringC false
  | .nullCCls => .nullC
  | .boolCCls => .boolC
  | .anyCCls => .anyC

/-- The argument space of the normalization helper `Contract._contract`:
a contract instance, a contract class, a plain (new-style) runtime type,
an old-style Python 2 class that is not a contract, or a value that is not a
class at all. -/
inductive ContractArg where
  | inst (c : Contract)
  | cls (k : ContractClass)
  | pytype (t : PyType)
  | oldStyleClass (name : String)
  | nonClass (v : Value)

/-- `Contract._contract`, with Python 2 evaluation order:
`isinstance(contract, Contract)` passes instances through; otherwise
`issubclass(contract, Contract)` is evaluated — for an argument that is not a
class at all this call itself raises the built-in
`TypeError: issubclass() arg 1 must be a class` before the final `else` is
ever reached; a contract class is instantiated with no arguments; a remaining
new-style type is wrapped in `TypeC`; only an old-style class (a `classobj`,
which `issubclass` tolerates and `isinstance(·, type)` rejects) reaches the
`RuntimeError` branch. -/
def _contract : ContractArg → Except Err Contract
  | .inst c => .ok c
  | .cls k => .ok (instantiateClass k)
  | .pytype t => .ok (.typeC t)
  | .oldStyleClass name =>
    .error (.runtime (name ++ " should be instance or subclass of Contract"))
  | .nonClass _ => .error (.typeError "issubclass() arg 1 must be a class")

/-- Leaf contracts of the modelled fragment: contracts with no sub-contracts. -/
def isLeafC : Contract → Bool
  | .typeC _ => true
  | .anyC => true
  | .nullC => true
  | .boolC => true
  | .floatC _ _ _ _ => true
  | .intC _ _ _ _ => true
  | .stringC _ => true
  | .enumC _ => true
  | _ => false

/-- Whether an exception is a `ContractValidationError`. -/
def isValidationB : Err → Bool
  | .validation _ _ => true
  | _ => false

/-- Whether an exception is a `RuntimeError` — the kind the source uses for
every configuration error it raises itself. -/
def isRuntimeB : Err → Bool
  | .runtime _ => true
  | _ => false

/-- `IntC()`: the default integer contract. -/
def intC0 : Contract := .intC none none none none

/-- `StringC()`: the default string contract. -/
def stringC0 : Contract := .stringC false

/-- The bound target of the recursive node schema of the spec:
`DictC(name=StringC, children=ListC[nodeC])` where `nodeC` is the forward
cell with id 0. -/
def nodeSchema : Contract :=
  .dictC [("name", stringC0), ("children", .listC (.forwardC 0) 0 none)] [] [] false

/-- Store in which the forward cell 0 is bound to `nodeSchema`. -/
def nodeEnv : Env := [some nodeSchema]

/-- The forward-declared node contract itself. -/
def nodeC : Contract := .forwardC 0

/-- The accepted recursive value of the spec example. -/
def nodeGood : Value :=
  .vDict [("name", .vStr "a"),
          ("children", .vList [.vDict [("name", .vStr "b"), ("children", .vList [])]])]

/-- The rejected recursive value of the spec example. -/
def nodeBad : Value :=
  .vDict [("name", .vStr "a"), ("children", .vList [.vInt 1])]

/-! Helper lemmas.  The `..._snd` family shows that every `check` loop returns
its receiver state unchanged, reflecting that no `check` method of the source
assigns to any attribute. -/

lemma updateKey_self : ∀ (cs : List (String × Contract)) (key : String) (ck : Contract),
    lookupKey cs key = some ck → updateKey cs key ck = cs := by
  intro cs
  induction cs with
  | nil => intro key ck h; simp [lookupKey] at h
  | cons kc rest ih =>
    intro key ck h
    obtain ⟨k, c⟩ := kc
    by_cases hk : (k == key) = true
    · simp only [lookupKey, if_pos hk] at h
      injection h with hce
      simp only [updateKey, if_pos hk, hce]
    · simp only [lookupKey, if_neg hk] at h
      simp only [updateKey, if_neg hk, List.cons.injEq, true_and]
      exact ih key ck h

lemma check_item_snd (f : Contract → Value → Except Err Unit × Contract)
    (hf : ∀ cc y, (f cc y).2 = cc)
    (cs : List (String × Contract)) (extras : List String) (allow_any : Bool)
    (item : String × Value) :
    (check_item f cs extras allow_any item).2 = cs := by
  obtain ⟨key, value⟩ := item
  unfold check_item
  cases hlk : lookupKey cs key with
  | none => simp [hlk]; split <;> rfl
  | some ck =>
    have hck := hf ck value
    cases hfx : f ck value with
    | mk r ck' =>
      rw [hfx] at hck
      simp only at hck
      subst hck
      cases r with
      | ok u => simp [hlk, hfx, updateKey_self _ _ _ hlk]
      | error e => simp [hlk, hfx, updateKey_self _ _ _ hlk]

lemma checkItems_snd (f : Contract → Value → Except Err Unit × Contract)
    (hf : ∀ cc y, (f cc y).2 = cc) (extras : List String) (allow_any : Bool) :
    ∀ (items : List (String × Value)) (cs : List (String × Contract)),
    (checkItems f extras allow_any cs items).2 = cs := by
  intro items
  induction items with
  | nil => intro cs; rfl
  | cons item rest ih =>
    intro cs
    have hi := check_item_snd f hf cs extras allow_any item
    cases hfx : check_item f cs extras allow_any item with
    | mk r cs' =>
      rw [hfx] at hi
      simp only at hi
      subst hi
      cases r with
      | ok u => simp [checkItems, hfx, ih]
      | error e => simp [checkItems, hfx]

lemma checkListItems_snd (f : Contract → Value → Except Err Unit × Contract)
    (hf : ∀ cc y, (f cc y).2 = cc) :
    ∀ (xs : List Value) (c : Contract) (i : Nat),
    (checkListItems f c i xs).2 = c := by
  intro xs
  induction xs with
  | nil => intro c i; rfl
  | cons x rest ih =>
    intro c i
    have hc := hf c x
    cases hfx : f c x with
    | mk r c' =>
      rw [hfx] at hc
      simp only at hc
      subst hc
      cases r with
      | ok u => simp [checkListItems, hfx, ih]
      | error e => simp [checkListItems, hfx]

lemma checkOrItems_snd (f : Contract → Value → Except Err Unit × Contract)
    (hf : ∀ cc y, (f cc y).2 = cc) (v : Value) :
    ∀ (cs : List Contract), (checkOrItems f v cs).2 = cs := by
  intro cs
  induction cs with
  | nil => rfl
  | cons c rest ih =>
    have hc := hf c v
    cases hfx : f c v with
    | mk r c' =>
      rw [hfx] at hc
      simp only at hc
      subst hc
      cases r with
      | ok u => simp [checkOrItems, hfx]
      | error e =>
        cases e with
        | validation msg n =>
          cases hro : checkOrItems f v rest with
          | mk r2 rest' =>
            have := ih
            rw [hro] at this
            simp only at this
            subst this
            simp [checkOrItems, hfx, hro]
        | runtime m => simp [checkOrItems, hfx]
        | attrError m => simp [checkOrItems, hfx]
        | typeError m => simp [checkOrItems, hfx]

lemma checkMappingItems_snd (f : Contract → Value → Except Err Unit × Contract)
    (hf : ∀ cc y, (f cc y).2 = cc) :
    ∀ (items : List (String × Value)) (kc vc : Contract),
    (checkMappingItems f kc vc items).2 = (kc, vc) := by
  intro items
  induction items with
  | nil => intro kc vc; rfl
  | cons item rest ih =>
    intro kc vc
    obtain ⟨key, value⟩ := item
    have hkc := hf kc (.vStr key)
    cases hfk : f kc (.vStr key) with
    | mk rk kc' =>
      rw [hfk] at hkc
      simp only at hkc
      subst hkc
      cases rk with
      | ok u =>
        have hvc := hf vc value
        cases hfv : f vc value with
        | mk rv vc' =>
          rw [hfv] at hvc
          simp only at hvc
          subst hvc
          cases rv with
          | ok u2 => simp [checkMappingItems, hfk, hfv, ih]
          | error e =>
            cases e with
            | validation msg n => simp [checkMappingItems, hfk, hfv]
            | runtime m => simp [checkMappingItems, hfk, hfv]
            | attrError m => simp [checkMappingItems, hfk, hfv]
            | typeError m => simp [checkMappingItems, hfk, hfv]
      | error e =>
        cases e with
        | validation msg n => simp [checkMappingItems, hfk]
        | runtime m => simp [checkMappingItems, hfk]
        | attrError m => simp [checkMappingItems, hfk]
        | typeError m => simp [checkMappingItems, hfk]

/-- No `check` call mutates its receiver: the contract returned alongside the
outcome is the contract checked. -/
lemma check_snd (env : Env) :
    ∀ (fuel : Nat) (c : Contract) (v : Value), (check env fuel c v).2 = c := by
  intro fuel
  induction fuel with
  | zero => intro c v; rfl
  | succ fuel ih =>
    intro c v
    have hf : ∀ cc y, (check env fuel cc y).2 = cc := fun cc y => ih cc y
    cases c with
    | typeC t => rfl
    | anyC => rfl
    | nullC => rfl
    | boolC => rfl
    | floatC gte lte gt lt => rfl
    | intC gte lte gt lt => rfl
    | stringC ab => rfl
    | enumC vars => rfl
    | forwardC id =>
      cases henv : env[id]? with
      | none => simp [check, henv]
      | some oc => cases oc with
        | none => simp [check, henv]
        | some target => simp [check, henv]
    | orC cs =>
      have h := checkOrItems_snd (fun c' v' => check env fuel c' v') hf v cs
      cases hoi : checkOrItems (fun c' v' => check env fuel c' v') v cs with
      | mk r cs' =>
        rw [hoi] at h
        simp only at h
        subst h
        simp [check, hoi]
    | listC ec minl maxl =>
      cases v with
      | vList xs =>
        have h := checkListItems_snd (fun c' v' => check env fuel c' v') hf xs ec 0
        cases hli : checkListItems (fun c' v' => check env fuel c' v') ec 0 xs with
        | mk r ec' =>
          rw [hli] at h
          simp only at h
          subst h
          simp [check, hli]
          split
          · rfl
          · split <;> simp [hli]
      | vInt n => rfl
      | vBool b => rfl
      | vFloat q => rfl
      | vStr s => rfl
      | vNone => rfl
      | vDict entries => rfl
    | dictC contracts optionals extras allow_any =>
      cases v with
      | vDict items =>
        cases hpres : check_presence contracts optionals (items.map Prod.fst) with
        | error e => simp [check, hpres]
        | ok u =>
          have h := checkItems_snd (fun c' v' => check env fuel c' v') hf extras allow_any
                      items contracts
          cases hci : checkItems (fun c' v' => check env fuel c' v') extras allow_any
              contracts items with
          | mk r cs' =>
            rw [hci] at h
            simp only at h
            subst h
            simp [check, hpres, hci]
      | vInt n => rfl
      | vBool b => rfl
      | vFloat q => rfl
      | vStr s => rfl
      | vNone => rfl
      | vList xs => rfl
    | mappingC kc vc =>
      cases v with
      | vDict items =>
        have h := checkMappingItems_snd (fun c' v' => check env fuel c' v') hf items kc vc
        cases hmi : checkMappingItems (fun c' v' => check env fuel c' v') kc vc items with
        | mk r p =>
          rw [hmi] at h
          simp only at h
          subst h
          simp [check, hmi]
      | vInt n => rfl
      | vBool b => rfl
      | vFloat q => rfl
      | vStr s => rfl
      | vNone => rfl
      | vList xs => rfl

lemma checkListItems_all_ok (f : Contract → Value → Except Err Unit × Contract)
    (hf : ∀ cc y, (f cc y).2 = cc) :
    ∀ (xs : List Value) (c : Contract) (i : Nat),
    (∀ y ∈ xs, (f c y).1 = .ok ()) → checkListItems f c i xs = (.ok (), c) := by
  intro xs
  induction xs with
  | nil => intro c i _; rfl
  | cons x rest ih =>
    intro c i h
    have hx : (f c x).1 = .ok () := h x (by simp)
    have hc := hf c x
    cases hfx : f c x with
    | mk r c' =>
      rw [hfx] at hx hc
      simp only at hx hc
      subst hx
      rw [hc] at hfx
      simp only [checkListItems, hfx]
      exact ih c (i + 1) (fun y hy => h y (by simp [hy]))

lemma checkListItems_first_fail (f : Contract → Value → Except Err Unit × Contract)
    (hf : ∀ cc y, (f cc y).2 = cc) :
    ∀ (pre : List Value) (c : Contract) (i : Nat) (x : Value) (post : List Value)
      (msg : String) (p : Option String),
    (∀ y ∈ pre, (f c y).1 = .ok ()) →
    (f c x).1 = .error (.validation msg p) →
    checkListItems f c i (pre ++ x :: post)
      = (.error (.validation msg (some (pathJoin (toString (i + pre.length)) p))), c) := by
  intro pre
  induction pre with
  | nil =>
    intro c i x post msg p _ hx
    have hc := hf c x
    cases hfx : f c x with
    | mk r c' =>
      rw [hfx] at hx hc
      simp only at hx hc
      subst hx
      subst hc
      simp [checkListItems, hfx, rewrapErr]
  | cons y pre' ih =>
    intro c i x post msg p hpre hx
    have hy : (f c y).1 = .ok () := hpre y (by simp)
    have hc := hf c y
    cases hfy : f c y with
    | mk r c' =>
      rw [hfy] at hy hc
      simp only at hy hc
      subst hy
      rw [hc] at hfy
      have hrec := ih c (i + 1) x post msg p (fun z hz => hpre z (by simp [hz])) hx
      have harith : i + (y :: pre').length = (i + 1) + pre'.length := by
        simp [List.length_cons]
        omega
      rw [List.cons_append]
      simp only [checkListItems, hfy]
      rw [hrec, harith]

lemma checkOrItems_all_fail (f : Contract → Value → Except Err Unit × Contract)
    (hf : ∀ cc y, (f cc y).2 = cc) (v : Value) :
    ∀ (cs : List Contract),
    (∀ c ∈ cs, ∃ msg p, (f c v).1 = .error (.validation msg p)) →
    (checkOrItems f v cs).1 = .error (.validation "no one contract matches" none) := by
  intro cs
  induction cs with
  | nil => intro _; rfl
  | cons c rest ih =>
    intro h
    obtain ⟨msg, p, hc⟩ := h c (by simp)
    have hsnd := hf c v
    cases hfx : f c v with
    | mk r c' =>
      rw [hfx] at hc hsnd
      simp only at hc hsnd
      subst hc
      subst hsnd
      have hrest := ih (fun c2 hc2 => h c2 (by simp [hc2]))
      cases hro : checkOrItems f v rest with
      | mk r2 rest' =>
        rw [hro] at hrest
        simp only at hrest
        subst hrest
        simp [checkOrItems, hfx, hro]

lemma checkOrItems_first_ok (f : Contract → Value → Except Err Unit × Contract)
    (hf : ∀ cc y, (f cc y).2 = cc) (v : Value) :
    ∀ (cs1 : List Contract) (c0 : Contract) (cs2 : List Contract),
    (∀ c ∈ cs1, ∃ msg p, (f c v).1 = .error (.validation msg p)) →
    (f c0 v).1 = .ok () →
    (checkOrItems f v (cs1 ++ c0 :: cs2)).1 = .ok () := by
  intro cs1
  induction cs1 with
  | nil =>
    intro c0 cs2 _ h0
    have hsnd := hf c0 v
    cases hfx : f c0 v with
    | mk r c' =>
      rw [hfx] at h0 hsnd
      simp only at h0 hsnd
      subst h0
      subst hsnd
      simp [checkOrItems, hfx]
  | cons c rest ih =>
    intro c0 cs2 h h0
    obtain ⟨msg, p, hc⟩ := h c (by simp)
    have hsnd := hf c v
    cases hfx : f c v with
    | mk r c' =>
      rw [hfx] at hc hsnd
      simp only at hc hsnd
      subst hc
      subst hsnd
      have hrest := ih c0 cs2 (fun c2 hc2 => h c2 (by simp [hc2])) h0
      cases hro : checkOrItems f v (rest ++ c0 :: cs2) with
      | mk r2 rest' =>
        rw [hro] at hrest
        simp only at hrest
        subst hrest
        simp [checkOrItems, hfx, hro]

lemma checkNumeric_no_path (vt : PyType) (gte lte gt lt : Option Int) (v : Value)
    (msg : String) (nm : Option String) :
    checkNumeric vt gte lte gt lt v = .error (.validation msg nm) → nm = none := by
  intro h
  unfold checkNumeric at h
  split at h
  · simp_all
  · split at h
    · simp_all
    · split at h
      · simp_all
      · split at h
        · simp_all
        · split at h
          · simp_all
          · simp_all

/-- Every validation failure signalled by a leaf contract carries no path:
leaves always fail through `_failure`, which constructs the error with
`name = None`. -/
lemma leaf_no_path (env : Env) (fuel : Nat) (c : Contract) (v : Value)
    (msg : String) (nm : Option String) :
    isLeafC c = true → (check env fuel c v).1 = .error (.validation msg nm) →
    nm = none := by
  intro hleaf h
  cases fuel with
  | zero => simp [check] at h
  | succ fuel =>
    cases c with
    | typeC t =>
      simp only [check] at h
      split at h
      · simp_all
      · simp_all
    | anyC => simp [check] at h
    | nullC => cases v <;> simp_all [check]
    | boolC => cases v <;> simp_all [check]
    | floatC gte lte gt lt =>
      simp only [check] at h
      exact checkNumeric_no_path _ _ _ _ _ _ _ _ h
    | intC gte lte gt lt =>
      simp only [check] at h
      exact checkNumeric_no_path _ _ _ _ _ _ _ _ h
    | stringC ab =>
      cases v <;>
        first
        | (simp only [check] at h
           split at h
           · simp_all
           · simp_all)
        | simp_all [check]
    | enumC vars =>
      simp only [check] at h
      split at h
      · simp_all
      · simp_all
    | orC cs => simp [isLeafC] at hleaf
    | listC ec minl maxl => simp [isLeafC] at hleaf
    | dictC contracts optionals extras allow_any => simp [isLeafC] at hleaf
    | mappingC kc vc => simp [isLeafC] at hleaf
    | forwardC id => simp [isLeafC] at hleaf

/-! Claim theorems. -/

/-- C1 (counterexample): the claim's universal path rule fails for the
homogeneous mapping contract.  `MappingC(StringC, ListC(IntC))` checking
`{"foo": ["x"]}` catches the child failure whose path is `"0"`, but re-signals
with path `"(value for key 'foo')"` instead of the claimed
`prefix + "." + childPath`, i.e. `"foo.0"`. -/
theorem c1_counterexample :
    (check [] 5 (.mappingC stringC0 (.listC intC0 0 none))
        (.vDict [("foo", .vList [.vStr "x"])])).1
      = .error (.validation "value is not int" (some "(value for key \x27foo\x27)"))
    ∧ ("(value for key \x27foo\x27)" == "foo.0") = false := by
  refine ⟨rfl, by decide⟩

/-- C1 (amended): the list composite and the keyed mapping composite re-signal
a caught child validation failure with path `prefix + "." + childPath` when
the child failure had a path and just `prefix` otherwise, where `prefix` is
the element index resp. the key at which the child was checked; leaf
contracts always signal with no path.  The homogeneous mapping composite
instead re-signals with the fixed rendered path `"(key <repr>)"` for key
failures and `"(value for key <repr>)"` for value failures, discarding the
child failure's own path. -/
theorem c1_path_rule :
    (∀ (f : Contract → Value → Except Err Unit × Contract) (c : Contract) (i : Nat)
       (x : Value) (rest : List Value) (msg : String) (p : Option String) (c' : Contract),
      f c x = (.error (.validation msg p), c') →
      checkListItems f c i (x :: rest)
        = (.error (.validation msg (some (pathJoin (toString i) p))), c'))
    ∧ (∀ (f : Contract → Value → Except Err Unit × Contract)
         (contracts : List (String × Contract)) (extras : List String) (allow_any : Bool)
         (key : String) (value : Value) (ck : Contract) (msg : String)
         (p : Option String) (ck' : Contract),
      lookupKey contracts key = some ck →
      f ck value = (.error (.validation msg p), ck') →
      check_item f contracts extras allow_any (key, value)
        = (.error (.validation msg (some (pathJoin key p))), updateKey contracts key ck'))
    ∧ (∀ (env : Env) (fuel : Nat) (c : Contract) (v : Value) (msg : String)
         (nm : Option String),
      isLeafC c = true → (check env fuel c v).1 = .error (.validation msg nm) →
      nm = none)
    ∧ (∀ (f : Contract → Value → Except Err Unit × Contract) (kc vc : Contract)
         (key : String) (value : Value) (rest : List (String × Value)) (msg : String)
         (p : Option String) (kc' vc'' : Contract),
      f kc (.vStr key) = (.ok (), kc') →
      f vc value = (.error (.validation msg p), vc'') →
      checkMappingItems f kc vc ((key, value) :: rest)
        = (.error (.validation msg
            (some ("(value for key " ++ pyRepr (.vStr key) ++ ")"))), kc', vc''))
    ∧ (∀ (f : Contract → Value → Except Err Unit × Contract) (kc vc : Contract)
         (key : String) (value : Value) (rest : List (String × Value)) (msg : String)
         (p : Option String) (kc' : Contract),
      f kc (.vStr key) = (.error (.validation msg p), kc') →
      checkMappingItems f kc vc ((key, value) :: rest)
        = (.error (.validation msg (some ("(key " ++ pyRepr (.vStr key) ++ ")"))),
           kc', vc)) := by
  refine ⟨?_, ?_, ?_, ?_, ?_⟩
  · intro f c i x rest msg p c' hfx
    simp [checkListItems, hfx, rewrapErr]
  · intro f contracts extras allow_any key value ck msg p ck' hlk hfx
    simp [check_item, hlk, hfx, rewrapErr]
  · exact fun env fuel c v msg nm => leaf_no_path env fuel c v msg nm
  · intro f kc vc key value rest msg p kc' vc'' hfk hfv
    simp [checkMappingItems, hfk, hfv]
  · intro f kc vc key value rest msg p kc' hfk
    simp [checkMappingItems, hfk]

/-- C1 (witness): the list composite re-signals a path-less child failure at
index 2 with path `"2"`. -/
theorem c1_path_rule_witness :
    checkListItems (fun c' v' => check [] 3 c' v') intC0 2 [.vStr "x", .vInt 1]
      = (.error (.validation "value is not int" (some "2")), intC0) := by
  have h := c1_path_rule.1 (fun c' v' => check [] 3 c' v') intC0 2 (.vStr "x")
    [.vInt 1] "value is not int" none intC0 (by rfl)
  exact h

/-- C2: a numeric contract (`IntC`/`FloatC` both delegate to the shared
`FloatC.check` body) fails first on a value of the wrong numeric kind, and
otherwise evaluates the configured bounds in the fixed order `gte`, `lte`,
`lt`, `gt`, failing on the first violated bound; in particular a value
violating both a configured `gte` and a configured `lt` reports the `gte`
violation. -/
theorem c2_numeric_bound_order :
    (∀ (env : Env) (fuel : Nat) (gte lte gt lt : Option Int) (v : Value),
      (check env (fuel + 1) (.intC gte lte gt lt) v).1 = checkNumeric .int gte lte gt lt v
      ∧ (check env (fuel + 1) (.floatC gte lte gt lt) v).1
          = checkNumeric .float gte lte gt lt v)
    ∧ (∀ (vt : PyType) (gte lte gt lt : Option Int) (v : Value),
      isinst v vt = false →
      checkNumeric vt gte lte gt lt v
        = .error (.validation ("value is not " ++ pyTypeName vt) none))
    ∧ (∀ (vt : PyType) (g : Int) (lte gt lt : Option Int) (v : Value),
      isinst v vt = true → violGte (some g) (toQ v) = true →
      checkNumeric vt (some g) lte gt lt v
        = .error (.validation ("value is less than " ++ toString g) none))
    ∧ (∀ (vt : PyType) (gte : Option Int) (l : Int) (gt lt : Option Int) (v : Value),
      isinst v vt = true → violGte gte (toQ v) = false → violLte (some l) (toQ v) = true →
      checkNumeric vt gte (some l) gt lt v
        = .error (.validation ("value is greater than " ++ toString l) none))
    ∧ (∀ (vt : PyType) (gte lte gt : Option Int) (l : Int) (v : Value),
      isinst v vt = true → violGte gte (toQ v) = false → violLte lte (toQ v) = false →
      violLt (some l) (toQ v) = true →
      checkNumeric vt gte lte gt (some l) v
        = .error (.validation ("value should be less than " ++ toString l) none))
    ∧ (∀ (vt : PyType) (gte lte : Option Int) (g : Int) (lt : Option Int) (v : Value),
      isinst v vt = true → violGte gte (toQ v) = false → violLte lte (toQ v) = false →
      violLt lt (toQ v) = false → violGt (some g) (toQ v) = true →
      checkNumeric vt gte lte (some g) lt v
        = .error (.validation ("value should be greater than " ++ toString g) none))
    ∧ (∀ (vt : PyType) (gte lte gt lt : Option Int) (v : Value),
      isinst v vt = true → violGte gte (toQ v) = false → violLte lte (toQ v) = false →
      violLt lt (toQ v) = false → violGt gt (toQ v) = false →
      checkNumeric vt gte lte gt lt v = .ok ())
    ∧ (∀ (vt : PyType) (g l : Int) (lte gt : Option Int) (v : Value),
      isinst v vt = true → violGte (some g) (toQ v) = true → violLt (some l) (toQ v) = true →
      checkNumeric vt (some g) lte gt (some l) v
        = .error (.validation ("value is less than " ++ toString g) none)) := by
  refine ⟨?_, ?_, ?_, ?_, ?_, ?_, ?_, ?_⟩
  · intro env fuel gte lte gt lt v
    exact ⟨rfl, rfl⟩
  · intro vt gte lte gt lt v h
    simp [checkNumeric, h]
  · intro vt g lte gt lt v h1 h2
    simp [checkNumeric, h1, h2, obStr]
  · intro vt gte l gt lt v h1 h2 h3
    simp [checkNumeric, h1, h2, h3, obStr]
  · intro vt gte lte gt l v h1 h2 h3 h4
    simp [checkNumeric, h1, h2, h3, h4, obStr]
  · intro vt gte lte g lt v h1 h2 h3 h4 h5
    simp [checkNumeric, h1, h2, h3, h4, h5, obStr]
  · intro vt gte lte gt lt v h1 h2 h3 h4 h5
    simp [checkNumeric, h1, h2, h3, h4, h5]
  · intro vt g l lte gt v h1 h2 h3
    simp [checkNumeric, h1, h2, obStr]

/-- C2 (witness): `IntC(gte=5, lt=3)` checking `4` violates both bounds and
reports the `gte` violation. -/
theorem c2_numeric_bound_order_witness :
    checkNumeric .int (some 5) none none (some 3) (.vInt 4)
      = .error (.validation "value is less than 5" none) := by
  have h := c2_numeric_bound_order.2.2.2.2.2.2.2 .int 5 3 none none (.vInt 4)
    (by rfl) (by decide) (by decide)
  exact h

/-- C3: `DictC(foo=IntC, bar=StringC)` accepts `{"foo": 1, "bar": "x"}`;
rejects `{"foo": 1}` with the path-less message `"bar is required"`; rejects
`{"foo": 1, "bar": "x", "eggs": None}` with `"eggs is not allowed key"`; and
after `allow_extra("eggs")` the last value is accepted. -/
theorem c3_dictc_example :
    (check [] 5 (.dictC [("foo", intC0), ("bar", stringC0)] [] [] false)
      (.vDict [("foo", .vInt 1), ("bar", .vStr "x")])).1 = .ok ()
    ∧ (check [] 5 (.dictC [("foo", intC0), ("bar", stringC0)] [] [] false)
      (.vDict [("foo", .vInt 1)])).1 = .error (.validation "bar is required" none)
    ∧ (check [] 5 (.dictC [("foo", intC0), ("bar", stringC0)] [] [] false)
      (.vDict [("foo", .vInt 1), ("bar", .vStr "x"), ("eggs", .vNone)])).1
        = .error (.validation "eggs is not allowed key" none)
    ∧ (check [] 5
        (allow_extra (.dictC [("foo", intC0), ("bar", stringC0)] [] [] false) ["eggs"])
      (.vDict [("foo", .vInt 1), ("bar", .vStr "x"), ("eggs", .vNone)])).1 = .ok () := by
  refine ⟨rfl, rfl, rfl, rfl⟩

/-- C4: the list contract rejects non-lists with `"value is not list"`, then
enforces the length bounds with the messages
`"list length is less than <min>"` / `"list length is greater than <max>"`,
then checks the elements in index order, stopping at the first failing
element and re-signalling its failure with path `"<index>"` or
`"<index>.<childPath>"`; if every element passes, the check succeeds. -/
theorem c4_listc :
    (∀ (env : Env) (fuel : Nat) (ec : Contract) (m : Nat) (M : Option Nat) (v : Value),
      isinst v .list = false →
      (check env (fuel + 1) (.listC ec m M) v).1
        = .error (.validation "value is not list" none))
    ∧ (∀ (env : Env) (fuel : Nat) (ec : Contract) (m : Nat) (M : Option Nat)
         (xs : List Value),
      xs.length < m →
      (check env (fuel + 1) (.listC ec m M) (.vList xs)).1
        = .error (.validation ("list length is less than " ++ toString m) none))
    ∧ (∀ (env : Env) (fuel : Nat) (ec : Contract) (m mx : Nat) (xs : List Value),
      ¬ (xs.length < m) → xs.length > mx →
      (check env (fuel + 1) (.listC ec m (some mx)) (.vList xs)).1
        = .error (.validation ("list length is greater than " ++ toString mx) none))
    ∧ (∀ (env : Env) (fuel : Nat) (ec : Contract) (m : Nat) (M : Option Nat)
         (pre : List Value) (x : Value) (post : List Value) (msg : String)
         (p : Option String),
      ¬ ((pre ++ x :: post).length < m) →
      maxViol M (pre ++ x :: post).length = false →
      (∀ y ∈ pre, (check env fuel ec y).1 = .ok ()) →
      (check env fuel ec x).1 = .error (.validation msg p) →
      (check env (fuel + 1) (.listC ec m M) (.vList (pre ++ x :: post))).1
        = .error (.validation msg (some (pathJoin (toString pre.length) p))))
    ∧ (∀ (env : Env) (fuel : Nat) (ec : Contract) (m : Nat) (M : Option Nat)
         (xs : List Value),
      ¬ (xs.length < m) → maxViol M xs.length = false →
      (∀ y ∈ xs, (check env fuel ec y).1 = .ok ()) →
      (check env (fuel + 1) (.listC ec m M) (.vList xs)).1 = .ok ()) := by
  refine ⟨?_, ?_, ?_, ?_, ?_⟩
  · intro env fuel ec m M v h
    cases v <;> first | rfl | simp [isinst] at h
  · intro env fuel ec m M xs h
    simp [check, h]
  · intro env fuel ec m mx xs h1 h2
    simp [check, h1, maxViol, h2, obStrNat]
  · intro env fuel ec m M pre x post msg p h1 h2 hpre hx
    have hf : ∀ cc y, (check env fuel cc y).2 = cc := fun cc y => check_snd env fuel cc y
    have hfx : check env fuel ec x = (.error (.validation msg p), ec) := by
      have := check_snd env fuel ec x
      cases hc : check env fuel ec x with
      | mk r c2 =>
        rw [hc] at hx this
        simp only at hx this
        rw [hx, this]
    have hli := checkListItems_first_fail (fun c' v' => check env fuel c' v') hf pre ec 0
      x post msg p hpre hx
    simp only [Nat.zero_add] at hli
    simp only [List.length_append, List.length_cons] at h1 h2
    simp [check, h1, h2, hli]
  · intro env fuel ec m M xs h1 h2 hall
    have hf : ∀ cc y, (check env fuel cc y).2 = cc := fun cc y => check_snd env fuel cc y
    have hli := checkListItems_all_ok (fun c' v' => check env fuel c' v') hf xs ec 0 hall
    simp [check, h1, h2, hli]

/-- C4 (witness): `ListC(IntC).check([1, 2, 3.0])` fails at index 2 with path
`"2"` and message `"value is not int"` (the path-propagation example of the
spec). -/
theorem c4_listc_witness :
    (check [] 3 (.listC intC0 0 none) (.vList [.vInt 1, .vInt 2, .vFloat 3])).1
      = .error (.validation "value is not int" (some "2")) := by
  have h := c4_listc.2.2.2.1 [] 2 intC0 0 none [.vInt 1, .vInt 2] (.vFloat 3) []
    "value is not int" none (by decide) (by rfl)
    (by
      intro y hy
      simp only [List.mem_cons, List.not_mem_nil, or_false] at hy
      rcases hy with h | h <;> subst h <;> rfl)
    (by rfl)
  simpa using h

/-- C5: the alternation contract tries its sub-contracts in order on the same
value, returns as soon as one accepts, and when all fail signals the single
failure `"no one contract matches"`, discarding the individual sub-failures;
`OrC(IntC, NullC)` accepts `None` and `5` and rejects `"x"` with that
message. -/
theorem c5_orc :
    (∀ (env : Env) (fuel : Nat) (cs : List Contract) (v : Value),
      (∀ c ∈ cs, ∃ msg p, (check env fuel c v).1 = .error (.validation msg p)) →
      (check env (fuel + 1) (.orC cs) v).1
        = .error (.validation "no one contract matches" none))
    ∧ (∀ (env : Env) (fuel : Nat) (cs1 : List Contract) (c0 : Contract)
         (cs2 : List Contract) (v : Value),
      (∀ c ∈ cs1, ∃ msg p, (check env fuel c v).1 = .error (.validation msg p)) →
      (check env fuel c0 v).1 = .ok () →
      (check env (fuel + 1) (.orC (cs1 ++ c0 :: cs2)) v).1 = .ok ())
    ∧ (check [] 3 (.orC [intC0, .nullC]) .vNone).1 = .ok ()
    ∧ (check [] 3 (.orC [intC0, .nullC]) (.vInt 5)).1 = .ok ()
    ∧ (check [] 3 (.orC [intC0, .nullC]) (.vStr "x")).1
        = .error (.validation "no one contract matches" none) := by
  refine ⟨?_, ?_, rfl, rfl, rfl⟩
  · intro env fuel cs v h
    have hf : ∀ cc y, (check env fuel cc y).2 = cc := fun cc y => check_snd env fuel cc y
    have hoi := checkOrItems_all_fail (fun c' v' => check env fuel c' v') hf v cs h
    cases hro : checkOrItems (fun c' v' => check env fuel c' v') v cs with
    | mk r cs' =>
      rw [hro] at hoi
      simp only at hoi
      subst hoi
      simp [check, hro]
  · intro env fuel cs1 c0 cs2 v h h0
    have hf : ∀ cc y, (check env fuel cc y).2 = cc := fun cc y => check_snd env fuel cc y
    have hoi := checkOrItems_first_ok (fun c' v' => check env fuel c' v') hf v cs1 c0 cs2
      h h0
    cases hro : checkOrItems (fun c' v' => check env fuel c' v') v (cs1 ++ c0 :: cs2) with
    | mk r cs' =>
      rw [hro] at hoi
      simp only at hoi
      subst hoi
      simp [check, hro]

/-- C5 (witness): `OrC(IntC, NullC).check(None)` succeeds because the first
alternative fails with a validation error and the second accepts. -/
theorem c5_orc_witness :
    (check [] 3 (.orC [intC0, .nullC]) .vNone).1 = .ok () := by
  have h := c5_orc.2.1 [] 2 [intC0] .nullC [] .vNone
    (by
      intro c hc
      simp only [List.mem_singleton] at hc
      subst hc
      exact ⟨"value is not int", none, rfl⟩)
    (by rfl)
  exact h

/-- C6: the forward-declared node contract bound to
`DictC(name=StringC, children=ListC[node])` accepts
`{"name": "a", "children": [{"name": "b", "children": []}]}` and rejects
`{"name": "a", "children": [1]}` with a failure whose path is
`"children.0"`. -/
theorem c6_recursive_node :
    (check nodeEnv 10 nodeC nodeGood).1 = .ok ()
    ∧ (check nodeEnv 10 nodeC nodeBad).1
        = .error (.validation "value is not dict" (some "children.0")) := by
  refine ⟨rfl, rfl⟩

/-- C7: checking a forward-declaration contract whose cell is still unbound
raises `AttributeError` (`self.contract` is `None`), a distinct error kind
for programmer error that is not a validation failure and carries no path. -/
theorem c7_forward_unbound (env : Env) (id : Nat) (v : Value) (fuel : Nat)
    (h : env[id]? = some none) :
    check env (fuel + 1) (.forwardC id) v
      = (.error (.attrError "\x27NoneType\x27 object has no attribute \x27check\x27"),
         .forwardC id)
    ∧ isValidationB
        (.attrError "\x27NoneType\x27 object has no attribute \x27check\x27") = false := by
  refine ⟨by simp [check, h], rfl⟩

/-- C7 (witness): checking the unbound cell 0 of a one-cell store. -/
theorem c7_forward_unbound_witness :
    check [none] 1 (.forwardC 0) (.vInt 1)
      = (.error (.attrError "\x27NoneType\x27 object has no attribute \x27check\x27"),
         .forwardC 0)
    ∧ isValidationB
        (.attrError "\x27NoneType\x27 object has no attribute \x27check\x27") = false :=
  c7_forward_unbound [none] 0 (.vInt 1) 0 rfl

/-- C8 (counterexample): the claim says every argument that is neither a
contract instance, a contract class nor a plain type raises a configuration
error, but `_contract(5)` raises the built-in
`TypeError: issubclass() arg 1 must be a class` from the `issubclass` test —
not the `RuntimeError` kind the source uses for its configuration errors. -/
theorem c8_counterexample :
    _contract (.nonClass (.vInt 5))
      = .error (.typeError "issubclass() arg 1 must be a class")
    ∧ isRuntimeB (.typeError "issubclass() arg 1 must be a class") = false := by
  refine ⟨rfl, rfl⟩

/-- C8 (amended): the normalization helper passes contract instances through,
instantiates a contract class with no arguments, and wraps a plain new-style
type in a type contract; an argument that is a class but none of the above
(a Python 2 old-style class) raises the configuration error, while an
argument that is not a class at all raises the built-in `TypeError` from the
`issubclass` test instead of a configuration error. -/
theorem c8_contract_helper :
    (∀ c : Contract, _contract (.inst c) = .ok c)
    ∧ (∀ k : ContractClass, _contract (.cls k) = .ok (instantiateClass k))
    ∧ (∀ t : PyType, _contract (.pytype t) = .ok (.typeC t))
    ∧ (∀ name : String, _contract (.oldStyleClass name)
        = .error (.runtime (name ++ " should be instance or subclass of Contract")))
    ∧ (∀ v : Value, _contract (.nonClass v)
        = .error (.typeError "issubclass() arg 1 must be a class")) :=
  ⟨fun _ => rfl, fun _ => rfl, fun _ => rfl, fun _ => rfl, fun _ => rfl⟩

/-- C9: a `check` call never mutates the contract's configuration state (the
returned receiver equals the contract checked, and the store is read-only by
the type of `check`), so a second `check` of the same accepted value runs on
identical state and returns the identical outcome. -/
theorem c9_check_idempotent (env : Env) (fuel : Nat) (c : Contract) (v : Value)
    (h : (check env fuel c v).1 = .ok ()) :
    (check env fuel c v).2 = c
    ∧ check env fuel ((check env fuel c v).2) v = check env fuel c v := by
  refine ⟨check_snd env fuel c v, ?_⟩
  rw [check_snd env fuel c v]

/-- C9 (witness): two successive checks of `1` against `IntC()`. -/
theorem c9_check_idempotent_witness :
    (check [] 1 intC0 (.vInt 1)).1 = .ok ()
    ∧ (check [] 1 intC0 (.vInt 1)).2 = intC0
    ∧ check [] 1 ((check [] 1 intC0 (.vInt 1)).2) (.vInt 1)
        = check [] 1 intC0 (.vInt 1) := by
  have h := c9_check_idempotent [] 1 intC0 (.vInt 1) rfl
  exact ⟨rfl, h.1, h.2⟩

/-- C10: both boolean values are accepted by `IntC()` because Python `bool`
is a subclass of `int` (`isinstance(b, int)` holds), even though the separate
`BoolC` accepts only booleans (it rejects the integer `1`). -/
theorem c10_bool_is_int (env : Env) (fuel : Nat) (b : Bool) :
    isinst (.vBool b) .int = true
    ∧ (check env (fuel + 1) intC0 (.vBool b)).1 = .ok ()
    ∧ (check env (fuel + 1) .boolC (.vBool b)).1 = .ok ()
    ∧ (check env (fuel + 1) .boolC (.vInt 1)).1
        = .error (.validation "value should be True or False" none) := by
  cases b <;> exact ⟨rfl, rfl, rfl, rfl⟩

end CP
